import Mathlib

/-!
Verification development for the casbin-go-cloud-adapter repository
(`adapter.go`): a shallow embedding of the rule codec, the filter/query
builder and the policy-store adapter operations, together with theorems
settling the specification claims.

Modelling conventions:
* Go strings are Lean `String`s.
* The md5 hash used by `generateID` is a parameter `hash : String → String`
  of every definition that computes document ids; the pre-hash rendering
  (`fmt.Sprint` of the struct) is embedded exactly as `renderRule`.
* The docstore collection is a list of documents (`Store`); `Put` upserts
  by the `id` key field and `Delete` deletes by the `id` key field, as the
  memdocstore driver opened with url `mem://casbin_rule/id` does.
* Receiver mutation plus a returned `error` becomes explicit state passing:
  an operation returns the new adapter state together with an
  `Option String` error (`none` = nil error).
-/

/-- The persisted rule document, from `CasbinRule` in adapter.go:
fields `ptype`, `v0`..`v5` and the synthetic `id`. -/
structure CasbinRule where
  PType : String
  V0 : String
  V1 : String
  V2 : String
  V3 : String
  V4 : String
  V5 : String
  ID : String
deriving DecidableEq

/-- The string `fmt.Sprint(line)` produces for a `CasbinRule` value: the
eight fields in declaration order, space separated, wrapped in braces.
This is the byte string `generateID` feeds to md5. -/
def renderRule (line : CasbinRule) : String :=
  "\x7b" ++ String.intercalate " "
    [line.PType, line.V0, line.V1, line.V2, line.V3, line.V4, line.V5, line.ID]
    ++ "\x7d"

/-- `generateID` from adapter.go: the hex md5 digest of `fmt.Sprint(line)`.
The digest function itself is the parameter `hash`. -/
def generateID (hash : String → String) (line : CasbinRule) : String :=
  hash (renderRule line)

/-- `savePolicyLine` from adapter.go: build the document with `ptype` and
`v0..v5` taken positionally from `rule` (absent positions keep the zero
value `""`), then set `id := generateID` of the document (whose `ID` field
is still the zero value when hashed). -/
def savePolicyLine (hash : String → String) (ptype : String) (rule : List String) :
    CasbinRule :=
  let line : CasbinRule :=
    { PType := ptype
      V0 := rule.getD 0 ""
      V1 := rule.getD 1 ""
      V2 := rule.getD 2 ""
      V3 := rule.getD 3 ""
      V4 := rule.getD 4 ""
      V5 := rule.getD 5 ""
      ID := "" }
  { line with ID := generateID hash line }

/-- The field list selected by `loadPolicyLine` in adapter.go: with
`p = [ptype, v0..v5]`, the if/else-if chain takes the whole of `p` when
`v5` is non-empty, `p[:6]` when `v4` is non-empty, and so on down to
`p[:2]` when only `v0` is non-empty; when every value field is empty the
line text stays `""`, i.e. the empty list here. The Go code joins this
list with a comma separator and hands it to the external casbin model
loader. -/
def loadPolicyLineFields (line : CasbinRule) : List String :=
  let p := [line.PType, line.V0, line.V1, line.V2, line.V3, line.V4, line.V5]
  if line.V5 ≠ "" then p
  else if line.V4 ≠ "" then p.take 6
  else if line.V3 ≠ "" then p.take 5
  else if line.V2 ≠ "" then p.take 4
  else if line.V1 ≠ "" then p.take 3
  else if line.V0 ≠ "" then p.take 2
  else []

/-- The `lineText` string built by `loadPolicyLine` in adapter.go. -/
def loadPolicyLineText (line : CasbinRule) : String :=
  String.intercalate ", " (loadPolicyLineFields line)

/-- `toStringPolicy` from adapter.go: append each of `PType, V0..V5` in
order, skipping every field that is the empty string. -/
def toStringPolicy (c : CasbinRule) : List String :=
  let policy : List String := []
  let policy := if c.PType ≠ "" then policy ++ [c.PType] else policy
  let policy := if c.V0 ≠ "" then policy ++ [c.V0] else policy
  let policy := if c.V1 ≠ "" then policy ++ [c.V1] else policy
  let policy := if c.V2 ≠ "" then policy ++ [c.V2] else policy
  let policy := if c.V3 ≠ "" then policy ++ [c.V3] else policy
  let policy := if c.V4 ≠ "" then policy ++ [c.V4] else policy
  let policy := if c.V5 ≠ "" then policy ++ [c.V5] else policy
  policy

/-- Modelled from the spec: the operation "drop only a trailing run of
empty fields" used to phrase the decode-truncation rule (§4.1, §9 of the
spec). Stated spec-side, to be compared with the source's
`loadPolicyLineFields`. -/
def dropTrailingEmpty (l : List String) : List String :=
  (l.reverse.dropWhile (fun s => s = "")).reverse

/-- The document store: the open collection's contents, keyed by the `id`
field (the adapter's tests open `mem://casbin_rule/id`). -/
abbrev Store := List CasbinRule

/-- A mutation queued on a docstore action list. -/
inductive DocAction where
  | put (r : CasbinRule)
  | delete (r : CasbinRule)
deriving DecidableEq

/-- `Put` semantics of the document store: replace the document holding
the same `id` key, or insert the document when the key is absent. -/
def putRule (s : Store) (r : CasbinRule) : Store :=
  if ∃ x ∈ s, x.ID = r.ID then
    (s).map (fun x => if x.ID = r.ID then r else x)
  else s ++ [r]

/-- `Delete` semantics of the document store: drop every document holding
the argument's `id` key. -/
def deleteRule (s : Store) (r : CasbinRule) : Store :=
  (s).filter (fun x => x.ID ≠ r.ID)

/-- Run one queued action against the store. -/
def applyAction (s : Store) : DocAction → Store
  | .put r => putRule s r
  | .delete r => deleteRule s r

/-- Run a whole action list (one `Do` call) against the store. -/
def applyActions (s : Store) (l : List DocAction) : Store :=
  l.foldl applyAction s

/-- Resolve a docstore field path against a rule document, by the
`docstore:"..."` tags of `CasbinRule`. -/
def getField (r : CasbinRule) (f : String) : Option String :=
  if f = "ptype" then some r.PType
  else if f = "v0" then some r.V0
  else if f = "v1" then some r.V1
  else if f = "v2" then some r.V2
  else if f = "v3" then some r.V3
  else if f = "v4" then some r.V4
  else if f = "v5" then some r.V5
  else if f = "id" then some r.ID
  else none

/-- `addFiltersToQuery` from adapter.go: when
`fieldIndex <= filterIndex && filterIndex < fieldIndex+len(fieldValues)`
and `fieldValues[filterIndex-fieldIndex]` is non-empty, append the
equality clause on field `v{filterIndex}` for that value; otherwise
return the query unchanged. `fieldIndex` is a Go `int`, embedded as
`Int`; the query is the list of equality `Where` clauses. -/
def addFiltersToQuery (query : List (String × String)) (filterIndex : Nat)
    (fieldIndex : Int) (fieldValues : List String) : List (String × String) :=
  if fieldIndex ≤ (filterIndex : Int) ∧
      (filterIndex : Int) < fieldIndex + (fieldValues.length : Int) ∧
      fieldValues.getD ((filterIndex : Int) - fieldIndex).toNat "" ≠ "" then
    query ++ [("v" ++ toString filterIndex,
               fieldValues.getD ((filterIndex : Int) - fieldIndex).toNat "")]
  else query

/-- The query-building prologue shared by `RemoveFilteredPolicy` and
`UpdateFilteredPolicies` in adapter.go: start from the clause
`ptype == ruleType` and run `addFiltersToQuery` for positions 0 through
5. -/
def buildFilteredQuery (ptype : String) (fieldIndex : Int)
    (fieldValues : List String) : List (String × String) :=
  (List.range 6).foldl
    (fun q i => addFiltersToQuery q i fieldIndex fieldValues)
    [("ptype", ptype)]

/-- A document satisfies a query when every equality clause holds on it. -/
def matchesQuery (query : List (String × String)) (r : CasbinRule) : Bool :=
  query.all (fun fv => getField r fv.1 == some fv.2)

/-- `UpdateFilteredPolicies` from adapter.go: build the filtered query,
encode the new policies, decode every matched document into the returned
old-tuple list while queueing its deletion, queue a put of every new
line, and submit everything as one action list. Returns the old tuples,
the single submitted batch and the resulting store. -/
def UpdateFilteredPolicies (hash : String → String) (ptype : String)
    (newPolicies : List (List String)) (fieldIndex : Int)
    (fieldValues : List String) (store : Store) :
    List (List String) × List DocAction × Store :=
  let query := buildFilteredQuery ptype fieldIndex fieldValues
  let matched := (store : List CasbinRule).filter (matchesQuery query)
  let newLines := newPolicies.map (savePolicyLine hash ptype)
  let oldLines := matched.map toStringPolicy
  let actions := matched.map DocAction.delete ++ newLines.map DocAction.put
  (oldLines, actions, applyActions store actions)

/-- `RemoveFilteredPolicy` from adapter.go: build the filtered query,
queue a delete of every matched document and submit them as one action
list. Returns the submitted batch and the resulting store. -/
def RemoveFilteredPolicy (ptype : String) (fieldIndex : Int)
    (fieldValues : List String) (store : Store) : List DocAction × Store :=
  let query := buildFilteredQuery ptype fieldIndex fieldValues
  let matched := (store : List CasbinRule).filter (matchesQuery query)
  let actions := matched.map DocAction.delete
  (actions, applyActions store actions)

/-- `UpdatePolicies` from adapter.go: iterate the indices of `oldRules`,
reading `newRules` at the same index — a read past the end of `newRules`
is the Go out-of-bounds panic, embedded as `none`. Each index submits its
own `Delete(old).Put(new)` action list. Returns the submitted batches and
the final store. -/
def UpdatePolicies (hash : String → String) (ptype : String) :
    List (List String) → List (List String) → Store →
    Option (List (List DocAction) × Store)
  | [], _, store => some ([], store)
  | _ :: _, [], _ => none
  | o :: os, n :: ns, store =>
    let oldLine := savePolicyLine hash ptype o
    let newLine := savePolicyLine hash ptype n
    let batch := [DocAction.delete oldLine, DocAction.put newLine]
    let store1 := applyActions store batch
    match UpdatePolicies hash ptype os ns store1 with
    | none => none
    | some (bs, s) => some (batch :: bs, s)

/-- The caller-supplied filter predicate: `driver.Filter`, a field path
(list of path segments), an operator and a value. The driver's `Value`
is dynamically typed; the adapter's policy documents hold strings, so it
is embedded as `String`. -/
structure DriverFilter where
  fieldPath : List String
  op : String
  value : String
deriving DecidableEq

/-- The dynamically-typed `filter interface{}` argument of
`LoadFilteredPolicy`: the four recognized shapes of the type switch
(`Filter`, `*Filter`, `[]Filter`, `*[]Filter`), plus `other` standing
for every unrecognized dynamic type that falls to the `default` branch. -/
inductive FilterInput where
  | one (f : DriverFilter)
  | ptr (f : DriverFilter)
  | many (fs : List DriverFilter)
  | manyPtr (fs : List DriverFilter)
  | other
deriving DecidableEq

/-- The type switch of `LoadFilteredPolicy`: flatten a recognized shape
to the filter list, `none` on the `default` branch. -/
def normalizeFilters : FilterInput → Option (List DriverFilter)
  | .one f => some [f]
  | .ptr f => some [f]
  | .many fs => some fs
  | .manyPtr fs => some fs
  | .other => none

/-- One `Where` clause of the load query: the field path is dot-joined;
an empty operator defaults to `EqualOp` (`"="`); comparison operators
follow string order on the stored field. -/
def evalFilter (r : CasbinRule) (f : DriverFilter) : Bool :=
  let op := if f.op = "" then "=" else f.op
  match getField r (String.intercalate "." f.fieldPath) with
  | none => false
  | some s =>
      if op = "=" then s = f.value
      else if op = "<" then s < f.value
      else if op = "<=" then s ≤ f.value
      else if op = ">" then f.value < s
      else if op = ">=" then f.value ≤ s
      else false

/-- The adapter state: the `filtered` flag and the open collection. The
timeout and config fields play no part in the embedded semantics. -/
structure Adapter where
  filtered : Bool
  store : Store
deriving DecidableEq

/-- `IsFiltered` from adapter.go. -/
def IsFiltered (a : Adapter) : Bool :=
  a.filtered

/-- `LoadFilteredPolicy` from adapter.go. The model is the list of
tuples already loaded; a returned triple is (adapter state after the
call, model after the call, error). A `none` filter clears the
`filtered` flag; a present filter sets it before the type switch runs,
so the `default` branch returns the invalid-filter error with the flag
already set. On success the query (every normalized clause and-ed
together) runs over the store and each result's decoded tuple is
appended to the model; the external casbin line loader skips a document
whose line text is empty, i.e. a decoded tuple `[]`. -/
def LoadFilteredPolicy (a : Adapter) (m : List (List String))
    (filter : Option FilterInput) :
    Adapter × List (List String) × Option String :=
  match filter with
  | none =>
      let a1 : Adapter := { a with filtered := false }
      let rules := a1.store.filter (fun r => ([] : List DriverFilter).all (evalFilter r))
      (a1, m ++ (rules.map loadPolicyLineFields).filter (fun t => t ≠ []), none)
  | some fi =>
      let a1 : Adapter := { a with filtered := true }
      match normalizeFilters fi with
      | none => (a1, m, some "invalid filter type")
      | some filters =>
          let rules := a1.store.filter (fun r => filters.all (evalFilter r))
          (a1, m ++ (rules.map loadPolicyLineFields).filter (fun t => t ≠ []), none)

/-- `LoadPolicy` from adapter.go: `LoadFilteredPolicy` with a nil
filter. -/
def LoadPolicy (a : Adapter) (m : List (List String)) :
    Adapter × List (List String) × Option String :=
  LoadFilteredPolicy a m none

/-- The policy model consumed by `SavePolicy`: the `"p"` and `"g"`
sections, each a list of (rule-type tag, list of rules). -/
structure Model where
  p : List (String × List (List String))
  g : List (String × List (List String))

/-- `SavePolicy` from adapter.go: refuse when the adapter is filtered
(no write happens); otherwise encode every rule of both sections and put
them all in one action list. Returns (adapter state after the call,
error). -/
def SavePolicy (hash : String → String) (a : Adapter) (m : Model) :
    Adapter × Option String :=
  if a.filtered then (a, some "cannot save a filtered policy")
  else
    let lines :=
      (m.p.map (fun pr => pr.2.map (savePolicyLine hash pr.1))).flatten ++
      (m.g.map (fun pr => pr.2.map (savePolicyLine hash pr.1))).flatten
    ({ a with store := applyActions a.store (lines.map DocAction.put) }, none)

/-- Claim C1: round-trip of the rule codec — for every rule type and
every list of 1 to 6 non-empty string fields, decoding the document
produced by `savePolicyLine` yields back exactly `ruleType :: fields`,
with the same field count: no trailing empty strings added and no
fields truncated. -/
theorem decode_encode_roundtrip (hash : String → String) (t : String)
    (fields : List String) (h1 : fields ≠ []) (h2 : fields.length ≤ 6)
    (h3 : ∀ f ∈ fields, f ≠ "") :
    loadPolicyLineFields (savePolicyLine hash t fields) = t :: fields := by
  match fields with
  | [] => exact absurd rfl h1
  | [a] =>
      have ha : a ≠ "" := h3 a (by simp)
      simp [savePolicyLine, loadPolicyLineFields, ha]
  | [a, b] =>
      have hb : b ≠ "" := h3 b (by simp)
      simp [savePolicyLine, loadPolicyLineFields, hb]
  | [a, b, c] =>
      have hc : c ≠ "" := h3 c (by simp)
      simp [savePolicyLine, loadPolicyLineFields, hc]
  | [a, b, c, d] =>
      have hd : d ≠ "" := h3 d (by simp)
      simp [savePolicyLine, loadPolicyLineFields, hd]
  | [a, b, c, d, e] =>
      have he : e ≠ "" := h3 e (by simp)
      simp [savePolicyLine, loadPolicyLineFields, he]
  | [a, b, c, d, e, f] =>
      have hf : f ≠ "" := h3 f (by simp)
      simp [savePolicyLine, loadPolicyLineFields, hf]
  | a :: b :: c :: d :: e :: f :: g :: rest =>
      simp at h2

/-- Witness for Claim C1 at a concrete input. -/
theorem decode_encode_roundtrip_witness :
    (["alice", "data1", "read"] : List String) ≠ [] ∧
      (["alice", "data1", "read"] : List String).length ≤ 6 ∧
      (∀ f ∈ (["alice", "data1", "read"] : List String), f ≠ "") ∧
      loadPolicyLineFields
          (savePolicyLine (fun s => s) "p" ["alice", "data1", "read"]) =
        "p" :: ["alice", "data1", "read"] :=
  ⟨by decide, by decide, by decide,
    decode_encode_roundtrip (fun s => s) "p" ["alice", "data1", "read"]
      (by decide) (by decide) (by decide)⟩

/-- Claim C2, counterexample: two tuples with different field lists whose
space-joined renderings coincide get the identical id, so distinct field
lists do not yield distinct identities. -/
theorem generateID_distinctness_counterexample :
    (savePolicyLine (fun s => s) "p" ["a b", "c"]).ID =
        (savePolicyLine (fun s => s) "p" ["a", "b c"]).ID ∧
      (["a b", "c"] : List String) ≠ ["a", "b c"] := by
  decide

/-- Claim C2 as amended: the document id is a deterministic function of
the field content — it is exactly the digest of the rendered document
(ptype and v0..v5 in order, with the id field still empty) — but two
tuples with different field lists are not always assigned different ids:
field lists whose space-joined renderings agree collide for every digest
function. -/
theorem generateID_content_addressed (hash : String → String) (t : String)
    (fields : List String) :
    (savePolicyLine hash t fields).ID =
        hash (renderRule
          { PType := t
            V0 := fields.getD 0 ""
            V1 := fields.getD 1 ""
            V2 := fields.getD 2 ""
            V3 := fields.getD 3 ""
            V4 := fields.getD 4 ""
            V5 := fields.getD 5 ""
            ID := "" }) ∧
      (savePolicyLine hash "p" ["a b", "c"]).ID =
        (savePolicyLine hash "p" ["a", "b c"]).ID := by
  refine ⟨rfl, ?_⟩
  have h : renderRule
        { PType := "p", V0 := "a b", V1 := "c", V2 := "", V3 := ""
          V4 := "", V5 := "", ID := "" } =
      renderRule
        { PType := "p", V0 := "a", V1 := "b c", V2 := "", V3 := ""
          V4 := "", V5 := "", ID := "" } := by decide
  exact congrArg hash h

/-- Claim C9: the pre-hash encoding is not injective — the rule type `p`
with fields `["a b", "c"]` and with fields `["a", "b c"]` are distinct
tuples of the same type and the same field count, yet their rendered
documents are equal, so they are assigned the identical document id
under every digest function. -/
theorem preHash_encoding_not_injective (hash : String → String) :
    (savePolicyLine hash "p" ["a b", "c"]).ID =
        (savePolicyLine hash "p" ["a", "b c"]).ID ∧
      (["a b", "c"] : List String) ≠ ["a", "b c"] ∧
      (["a b", "c"] : List String).length = (["a", "b c"] : List String).length := by
  refine ⟨?_, by decide, by decide⟩
  have h : renderRule
        { PType := "p", V0 := "a b", V1 := "c", V2 := "", V3 := ""
          V4 := "", V5 := "", ID := "" } =
      renderRule
        { PType := "p", V0 := "a", V1 := "b c", V2 := "", V3 := ""
          V4 := "", V5 := "", ID := "" } := by decide
  exact congrArg hash h

/-- Claim C7, counterexample: `savePolicyLine` with an empty rule type
does not report an error — it produces a document, with the empty
string stored as `ptype`. -/
theorem savePolicyLine_empty_type_counterexample :
    savePolicyLine (fun s => s) "" ["a"] =
      { PType := "", V0 := "a", V1 := "", V2 := "", V3 := "", V4 := ""
        V5 := ""
        ID := renderRule
          { PType := "", V0 := "a", V1 := "", V2 := "", V3 := "", V4 := ""
            V5 := "", ID := "" } } := by
  decide

/-- Claim C7 as amended: `savePolicyLine` performs no validation of the
rule type — it is total, never reports an error, and stores whatever
rule type it is given (the empty string included) as the document's
`ptype`. -/
theorem savePolicyLine_no_type_guard (hash : String → String) (t : String)
    (rule : List String) :
    (savePolicyLine hash t rule).PType = t :=
  rfl

/-- Claim C6, counterexample: a stored document with `ptype` set, `v0`
empty and `v1` non-empty decodes to `[ptype, "", v1]` (3 elements) on
the model-load path, but `toStringPolicy` — the decode path used for the
old tuples returned by `UpdateFilteredPolicies` — drops the embedded
empty field and yields only 2 elements, so the truncation rule does not
hold for both decode paths. -/
theorem decode_truncation_counterexample :
    toStringPolicy
        { PType := "p", V0 := "", V1 := "x", V2 := "", V3 := "", V4 := ""
          V5 := "", ID := "i" } = ["p", "x"] ∧
      (toStringPolicy
        { PType := "p", V0 := "", V1 := "x", V2 := "", V3 := "", V4 := ""
          V5 := "", ID := "i" }).length ≠ 3 ∧
      loadPolicyLineFields
        { PType := "p", V0 := "", V1 := "x", V2 := "", V3 := "", V4 := ""
          V5 := "", ID := "i" } = ["p", "", "x"] := by
  decide

/-- Claim C6 as amended: on the model-load decode path
(`loadPolicyLineFields`), embedded empty value fields followed by a
non-empty field are preserved and only a trailing run of empty fields is
dropped — whenever at least one value field is non-empty, the decoded
tuple is exactly `ptype` followed by `v0..v5` with the trailing empty
run removed. The old-tuple decode path of `UpdateFilteredPolicies`
(`toStringPolicy`) instead drops every empty field, embedded ones
included: it equals the filter of all fields by non-emptiness. -/
theorem decode_truncation_rule (line c : CasbinRule)
    (h : ¬(line.V0 = "" ∧ line.V1 = "" ∧ line.V2 = "" ∧ line.V3 = "" ∧
        line.V4 = "" ∧ line.V5 = "")) :
    loadPolicyLineFields line =
        line.PType :: dropTrailingEmpty
          [line.V0, line.V1, line.V2, line.V3, line.V4, line.V5] ∧
      toStringPolicy c =
        List.filter (fun s => s ≠ "")
          [c.PType, c.V0, c.V1, c.V2, c.V3, c.V4, c.V5] := by
  constructor
  · by_cases h5 : line.V5 = ""
    · by_cases h4 : line.V4 = ""
      · by_cases h3 : line.V3 = ""
        · by_cases h2 : line.V2 = ""
          · by_cases h1 : line.V1 = ""
            · by_cases h0 : line.V0 = ""
              · exact absurd ⟨h0, h1, h2, h3, h4, h5⟩ h
              · simp [loadPolicyLineFields, dropTrailingEmpty,
                  List.dropWhile, h0, h1, h2, h3, h4, h5]
            · simp [loadPolicyLineFields, dropTrailingEmpty,
                List.dropWhile, h1, h2, h3, h4, h5]
          · simp [loadPolicyLineFields, dropTrailingEmpty, List.dropWhile,
              h2, h3, h4, h5]
        · simp [loadPolicyLineFields, dropTrailingEmpty, List.dropWhile,
            h3, h4, h5]
      · simp [loadPolicyLineFields, dropTrailingEmpty, List.dropWhile,
          h4, h5]
    · simp [loadPolicyLineFields, dropTrailingEmpty, List.dropWhile, h5]
  · by_cases hp : c.PType = "" <;> by_cases k0 : c.V0 = "" <;>
      by_cases k1 : c.V1 = "" <;> by_cases k2 : c.V2 = "" <;>
      by_cases k3 : c.V3 = "" <;> by_cases k4 : c.V4 = "" <;>
      by_cases k5 : c.V5 = "" <;>
      simp [toStringPolicy, List.filter_cons, hp, k0, k1, k2, k3, k4, k5]

/-- Witness for the amended Claim C6 at a concrete document with an
embedded empty field. -/
theorem decode_truncation_rule_witness :
    ¬(("" : String) = "" ∧ ("x" : String) = "" ∧ ("" : String) = "" ∧
        ("" : String) = "" ∧ ("" : String) = "" ∧ ("" : String) = "") ∧
      (loadPolicyLineFields
          { PType := "p", V0 := "", V1 := "x", V2 := "", V3 := "", V4 := ""
            V5 := "", ID := "i" } =
          "p" :: dropTrailingEmpty ["", "x", "", "", "", ""] ∧
        toStringPolicy
            { PType := "q", V0 := "", V1 := "y", V2 := "", V3 := "", V4 := ""
              V5 := "", ID := "j" } =
          List.filter (fun s => s ≠ "") ["q", "", "y", "", "", "", ""]) :=
  ⟨by decide,
    decode_truncation_rule
      { PType := "p", V0 := "", V1 := "x", V2 := "", V3 := "", V4 := ""
        V5 := "", ID := "i" }
      { PType := "q", V0 := "", V1 := "y", V2 := "", V3 := "", V4 := ""
        V5 := "", ID := "j" }
      (by decide)⟩

/-- Membership in the query returned by one `addFiltersToQuery` step:
either the clause was already present, or the step's guard holds and the
clause is the step's own equality pair. -/
lemma mem_addFiltersToQuery (x : String × String) (q : List (String × String))
    (i : Nat) (fi : Int) (fv : List String) :
    x ∈ addFiltersToQuery q i fi fv ↔
      x ∈ q ∨ ((fi ≤ (i : Int) ∧ (i : Int) < fi + (fv.length : Int) ∧
          fv.getD ((i : Int) - fi).toNat "" ≠ "") ∧
        x = ("v" ++ toString i, fv.getD ((i : Int) - fi).toNat "")) := by
  unfold addFiltersToQuery
  split_ifs with hc
  · simp only [List.mem_append, List.mem_singleton]
    tauto
  · tauto

/-- Unfolding of the position loop of `buildFilteredQuery`. -/
lemma buildFilteredQuery_eq (pt : String) (fi : Int) (fv : List String) :
    buildFilteredQuery pt fi fv =
      addFiltersToQuery (addFiltersToQuery (addFiltersToQuery
        (addFiltersToQuery (addFiltersToQuery (addFiltersToQuery
          [("ptype", pt)] 0 fi fv) 1 fi fv) 2 fi fv) 3 fi fv) 4 fi fv)
        5 fi fv :=
  rfl

/-- Claim C5: in the query built for filtered remove/replace, for every
position 0..5 an equality predicate on `v{position}` is present exactly
when `fieldIndex <= position < fieldIndex+len(fieldValues)` and
`fieldValues[position-fieldIndex]` is non-empty; and the query always
contains the equality predicate `ptype == ruleType`. -/
theorem filtered_query_clauses (pt : String) (fi : Int) (fv : List String)
    (pos : Nat) (hpos : pos < 6) :
    ("ptype", pt) ∈ buildFilteredQuery pt fi fv ∧
      ((∃ v, ("v" ++ toString pos, v) ∈ buildFilteredQuery pt fi fv) ↔
        (fi ≤ (pos : Int) ∧ (pos : Int) < fi + (fv.length : Int) ∧
          fv.getD ((pos : Int) - fi).toNat "" ≠ "")) := by
  constructor
  · simp only [buildFilteredQuery_eq, mem_addFiltersToQuery,
      List.mem_singleton]
    tauto
  · interval_cases pos
    · constructor
      · rintro ⟨v, hv⟩
        simp only [buildFilteredQuery_eq, mem_addFiltersToQuery,
          List.mem_singleton] at hv
        rcases hv with ((((((hv | ⟨hc, hv⟩) | ⟨hc, hv⟩) | ⟨hc, hv⟩) | ⟨hc, hv⟩) | ⟨hc, hv⟩) | ⟨hc, hv⟩)
        · rw [Prod.mk.injEq] at hv
          exact absurd hv.1 (by decide)
        · exact hc
        · rw [Prod.mk.injEq] at hv
          exact absurd hv.1 (by decide)
        · rw [Prod.mk.injEq] at hv
          exact absurd hv.1 (by decide)
        · rw [Prod.mk.injEq] at hv
          exact absurd hv.1 (by decide)
        · rw [Prod.mk.injEq] at hv
          exact absurd hv.1 (by decide)
        · rw [Prod.mk.injEq] at hv
          exact absurd hv.1 (by decide)
      · intro hc
        refine ⟨fv.getD (((↑(0 : Nat) : Int)) - fi).toNat "", ?_⟩
        simp only [buildFilteredQuery_eq, mem_addFiltersToQuery,
          List.mem_singleton]
        exact Or.inl (Or.inl (Or.inl (Or.inl (Or.inl (Or.inr ⟨hc, trivial⟩)))))
    · constructor
      · rintro ⟨v, hv⟩
        simp only [buildFilteredQuery_eq, mem_addFiltersToQuery,
          List.mem_singleton] at hv
        rcases hv with ((((((hv | ⟨hc, hv⟩) | ⟨hc, hv⟩) | ⟨hc, hv⟩) | ⟨hc, hv⟩) | ⟨hc, hv⟩) | ⟨hc, hv⟩)
        · rw [Prod.mk.injEq] at hv
          exact absurd hv.1 (by decide)
        · rw [Prod.mk.injEq] at hv
          exact absurd hv.1 (by decide)
        · exact hc
        · rw [Prod.mk.injEq] at hv
          exact absurd hv.1 (by decide)
        · rw [Prod.mk.injEq] at hv
          exact absurd hv.1 (by decide)
        · rw [Prod.mk.injEq] at hv
          exact absurd hv.1 (by decide)
        · rw [Prod.mk.injEq] at hv
          exact absurd hv.1 (by decide)
      · intro hc
        refine ⟨fv.getD (((↑(1 : Nat) : Int)) - fi).toNat "", ?_⟩
        simp only [buildFilteredQuery_eq, mem_addFiltersToQuery,
          List.mem_singleton]
        exact Or.inl (Or.inl (Or.inl (Or.inl (Or.inr ⟨hc, trivial⟩))))
    · constructor
      · rintro ⟨v, hv⟩
        simp only [buildFilteredQuery_eq, mem_addFiltersToQuery,
          List.mem_singleton] at hv
        rcases hv with ((((((hv | ⟨hc, hv⟩) | ⟨hc, hv⟩) | ⟨hc, hv⟩) | ⟨hc, hv⟩) | ⟨hc, hv⟩) | ⟨hc, hv⟩)
        · rw [Prod.mk.injEq] at hv
          exact absurd hv.1 (by decide)
        · rw [Prod.mk.injEq] at hv
          exact absurd hv.1 (by decide)
        · rw [Prod.mk.injEq] at hv
          exact absurd hv.1 (by decide)
        · exact hc
        · rw [Prod.mk.injEq] at hv
          exact absurd hv.1 (by decide)
        · rw [Prod.mk.injEq] at hv
          exact absurd hv.1 (by decide)
        · rw [Prod.mk.injEq] at hv
          exact absurd hv.1 (by decide)
      · intro hc
        refine ⟨fv.getD (((↑(2 : Nat) : Int)) - fi).toNat "", ?_⟩
        simp only [buildFilteredQuery_eq, mem_addFiltersToQuery,
          List.mem_singleton]
        exact Or.inl (Or.inl (Or.inl (Or.inr ⟨hc, trivial⟩)))
    · constructor
      · rintro ⟨v, hv⟩
        simp only [buildFilteredQuery_eq, mem_addFiltersToQuery,
          List.mem_singleton] at hv
        rcases hv with ((((((hv | ⟨hc, hv⟩) | ⟨hc, hv⟩) | ⟨hc, hv⟩) | ⟨hc, hv⟩) | ⟨hc, hv⟩) | ⟨hc, hv⟩)
        · rw [Prod.mk.injEq] at hv
          exact absurd hv.1 (by decide)
        · rw [Prod.mk.injEq] at hv
          exact absurd hv.1 (by decide)
        · rw [Prod.mk.injEq] at hv
          exact absurd hv.1 (by decide)
        · rw [Prod.mk.injEq] at hv
          exact absurd hv.1 (by decide)
        · exact hc
        · rw [Prod.mk.injEq] at hv
          exact absurd hv.1 (by decide)
        · rw [Prod.mk.injEq] at hv
          exact absurd hv.1 (by decide)
      · intro hc
        refine ⟨fv.getD (((↑(3 : Nat) : Int)) - fi).toNat "", ?_⟩
        simp only [buildFilteredQuery_eq, mem_addFiltersToQuery,
          List.mem_singleton]
        exact Or.inl (Or.inl (Or.inr ⟨hc, trivial⟩))
    · constructor
      · rintro ⟨v, hv⟩
        simp only [buildFilteredQuery_eq, mem_addFiltersToQuery,
          List.mem_singleton] at hv
        rcases hv with ((((((hv | ⟨hc, hv⟩) | ⟨hc, hv⟩) | ⟨hc, hv⟩) | ⟨hc, hv⟩) | ⟨hc, hv⟩) | ⟨hc, hv⟩)
        · rw [Prod.mk.injEq] at hv
          exact absurd hv.1 (by decide)
        · rw [Prod.mk.injEq] at hv
          exact absurd hv.1 (by decide)
        · rw [Prod.mk.injEq] at hv
          exact absurd hv.1 (by decide)
        · rw [Prod.mk.injEq] at hv
          exact absurd hv.1 (by decide)
        · rw [Prod.mk.injEq] at hv
          exact absurd hv.1 (by decide)
        · exact hc
        · rw [Prod.mk.injEq] at hv
          exact absurd hv.1 (by decide)
      · intro hc
        refine ⟨fv.getD (((↑(4 : Nat) : Int)) - fi).toNat "", ?_⟩
        simp only [buildFilteredQuery_eq, mem_addFiltersToQuery,
          List.mem_singleton]
        exact Or.inl (Or.inr ⟨hc, trivial⟩)
    · constructor
      · rintro ⟨v, hv⟩
        simp only [buildFilteredQuery_eq, mem_addFiltersToQuery,
          List.mem_singleton] at hv
        rcases hv with ((((((hv | ⟨hc, hv⟩) | ⟨hc, hv⟩) | ⟨hc, hv⟩) | ⟨hc, hv⟩) | ⟨hc, hv⟩) | ⟨hc, hv⟩)
        · rw [Prod.mk.injEq] at hv
          exact absurd hv.1 (by decide)
        · rw [Prod.mk.injEq] at hv
          exact absurd hv.1 (by decide)
        · rw [Prod.mk.injEq] at hv
          exact absurd hv.1 (by decide)
        · rw [Prod.mk.injEq] at hv
          exact absurd hv.1 (by decide)
        · rw [Prod.mk.injEq] at hv
          exact absurd hv.1 (by decide)
        · rw [Prod.mk.injEq] at hv
          exact absurd hv.1 (by decide)
        · exact hc
      · intro hc
        refine ⟨fv.getD (((↑(5 : Nat) : Int)) - fi).toNat "", ?_⟩
        simp only [buildFilteredQuery_eq, mem_addFiltersToQuery,
          List.mem_singleton]
        exact Or.inr ⟨hc, trivial⟩

/-- Witness for Claim C5 at a concrete position and filter. -/
theorem filtered_query_clauses_witness :
    (3 : Nat) < 6 ∧
      (("ptype", "p") ∈ buildFilteredQuery "p" 1 ["a", "", "b"] ∧
        ((∃ v, ("v" ++ toString (3 : Nat), v) ∈
            buildFilteredQuery "p" 1 ["a", "", "b"]) ↔
          ((1 : Int) ≤ ((3 : Nat) : Int) ∧
            ((3 : Nat) : Int) <
              1 + ((["a", "", "b"] : List String).length : Int) ∧
            (["a", "", "b"] : List String).getD
              (((3 : Nat) : Int) - 1).toNat "" ≠ ""))) :=
  ⟨by decide, filtered_query_clauses "p" 1 ["a", "", "b"] 3 (by decide)⟩

/-- Claim C3: while the adapter's `filtered` flag is true, `SavePolicy`
returns the filtered-save error and writes nothing to the store; after a
subsequent unfiltered `LoadPolicy` the flag is false and `SavePolicy`
succeeds. -/
theorem savePolicy_filtered_exclusivity (hash : String → String) (a : Adapter)
    (m : Model) (tuples : List (List String)) (h : a.filtered = true) :
    (SavePolicy hash a m).2 = some "cannot save a filtered policy" ∧
      (SavePolicy hash a m).1.store = a.store ∧
      (LoadPolicy a tuples).1.filtered = false ∧
      (SavePolicy hash (LoadPolicy a tuples).1 m).2 = none := by
  refine ⟨?_, ?_, ?_, ?_⟩ <;>
    simp [SavePolicy, LoadPolicy, LoadFilteredPolicy, h]

/-- Witness for Claim C3 at a concrete filtered adapter. -/
theorem savePolicy_filtered_exclusivity_witness :
    ({ filtered := true, store := [] } : Adapter).filtered = true ∧
      ((SavePolicy (fun s => s) { filtered := true, store := [] }
            { p := [("p", [["a"]])], g := [] }).2 =
          some "cannot save a filtered policy" ∧
        (SavePolicy (fun s => s) { filtered := true, store := [] }
            { p := [("p", [["a"]])], g := [] }).1.store =
          ({ filtered := true, store := [] } : Adapter).store ∧
        (LoadPolicy { filtered := true, store := [] } []).1.filtered = false ∧
        (SavePolicy (fun s => s)
            (LoadPolicy { filtered := true, store := [] } []).1
            { p := [("p", [["a"]])], g := [] }).2 = none) :=
  ⟨rfl, savePolicy_filtered_exclusivity (fun s => s)
    { filtered := true, store := [] } { p := [("p", [["a"]])], g := [] } []
    rfl⟩

/-- Claim C8, counterexample: an unrecognized filter shape makes
`LoadFilteredPolicy` report the invalid-filter error with no tuple
appended to the model, but the adapter's observable state does change —
`IsFiltered` flips from false to true, because the flag is assigned
before the type switch runs. -/
theorem invalid_filter_counterexample :
    IsFiltered (LoadFilteredPolicy { filtered := false, store := [] } []
        (some FilterInput.other)).1 ≠
      IsFiltered { filtered := false, store := ([] : Store) } ∧
    (LoadFilteredPolicy { filtered := false, store := [] } []
        (some FilterInput.other)).2.2 = some "invalid filter type" ∧
    (LoadFilteredPolicy { filtered := false, store := [] } []
        (some FilterInput.other)).2.1 = [] := by
  decide

/-- Claim C8 as amended: for a filter value of an unrecognized shape,
`LoadFilteredPolicy` returns the invalid-filter-type error immediately —
no store query is issued and the model is returned unchanged, with no
tuple appended — but the adapter's `filtered` flag has already been set
to true by the time the shape check fails, so the observable
`IsFiltered` state may change from false to true. -/
theorem invalid_filter_rejected (a : Adapter) (m : List (List String)) :
    LoadFilteredPolicy a m (some FilterInput.other) =
      ({ a with filtered := true }, m, some "invalid filter type") :=
  rfl

/-- Helper for Claim C10: when the old-rules list is strictly longer
than the new-rules list, the positional read of the new-rules list goes
out of bounds. -/
lemma updatePolicies_oob (hash : String → String) (pt : String) :
    ∀ (oldRules newRules : List (List String)),
      oldRules.length > newRules.length →
      ∀ store : Store, UpdatePolicies hash pt oldRules newRules store = none := by
  intro old
  induction old with
  | nil => intro new h store; simp at h
  | cons o os ih =>
      intro new h store
      cases new with
      | nil => rfl
      | cons n ns =>
          have h2 : os.length > ns.length := by
            simp only [List.length_cons] at h; omega
          simp only [UpdatePolicies]
          rw [ih ns h2]

/-- Helper for Claim C10: with equal lengths, each positional pair is
submitted as its own delete-then-put action list. -/
lemma updatePolicies_paired (hash : String → String) (pt : String) :
    ∀ (oldRules newRules : List (List String)),
      oldRules.length = newRules.length →
      ∀ store : Store, ∃ s : Store,
        UpdatePolicies hash pt oldRules newRules store =
          some ((oldRules.zip newRules).map
            (fun pr => [DocAction.delete (savePolicyLine hash pt pr.1),
              DocAction.put (savePolicyLine hash pt pr.2)]), s) := by
  intro old
  induction old with
  | nil =>
      intro new h store
      cases new with
      | nil => exact ⟨store, rfl⟩
      | cons n ns => simp at h
  | cons o os ih =>
      intro new h store
      cases new with
      | nil => simp at h
      | cons n ns =>
          have h2 : os.length = ns.length := by
            simp only [List.length_cons] at h; omega
          obtain ⟨s, hs⟩ := ih ns h2
            (applyActions store [DocAction.delete (savePolicyLine hash pt o),
              DocAction.put (savePolicyLine hash pt n)])
          refine ⟨s, ?_⟩
          simp only [UpdatePolicies]
          rw [hs]
          simp

/-- Claim C10: `UpdatePolicies` checks no lengths — whenever the
old-rules list is strictly longer than the new-rules list the positional
read of the new-rules list goes out of bounds (the error branch of the
embedding is reached); with equal lengths every pair `old[i]/new[i]` is
submitted as its own delete-then-put action list. -/
theorem updatePolicies_length_unchecked (hash : String → String) (pt : String)
    (oldRules newRules : List (List String)) (store : Store) :
    (oldRules.length > newRules.length →
        UpdatePolicies hash pt oldRules newRules store = none) ∧
      (oldRules.length = newRules.length →
        ∃ s : Store, UpdatePolicies hash pt oldRules newRules store =
          some ((oldRules.zip newRules).map
            (fun pr => [DocAction.delete (savePolicyLine hash pt pr.1),
              DocAction.put (savePolicyLine hash pt pr.2)]), s)) :=
  ⟨fun h => updatePolicies_oob hash pt oldRules newRules h store,
    fun h => updatePolicies_paired hash pt oldRules newRules h store⟩

/-- Witness for Claim C10 at concrete rule lists of each shape. -/
theorem updatePolicies_length_unchecked_witness :
    (([["a"]] : List (List String)).length > ([] : List (List String)).length ∧
        UpdatePolicies (fun s => s) "p" [["a"]] [] [] = none) ∧
      (([["a"]] : List (List String)).length =
          ([["b"]] : List (List String)).length ∧
        ∃ s : Store, UpdatePolicies (fun s => s) "p" [["a"]] [["b"]] [] =
          some ((([["a"]] : List (List String)).zip [["b"]]).map
            (fun pr =>
              [DocAction.delete (savePolicyLine (fun s => s) "p" pr.1),
                DocAction.put (savePolicyLine (fun s => s) "p" pr.2)]), s)) :=
  ⟨⟨by decide,
      (updatePolicies_length_unchecked (fun s => s) "p" [["a"]] [] []).1
        (by decide)⟩,
    ⟨by decide,
      (updatePolicies_length_unchecked (fun s => s) "p" [["a"]] [["b"]] []).2
        (by decide)⟩⟩

/-- Claim C4, counterexample: with stored rule `{alice,data1,read}` of
type `p`, `UpdateFilteredPolicies` with new policy `{alice,data1,write}`,
fieldIndex 0 and values `alice,data1,read` returns
`[[p, alice, data1, read]]` — the old tuple includes the rule type, not
just the value fields `[alice, data1, read]` the claim states. -/
theorem updateFilteredPolicies_counterexample :
    (UpdateFilteredPolicies (fun s => s) "p" [["alice", "data1", "write"]] 0
        ["alice", "data1", "read"]
        [savePolicyLine (fun s => s) "p" ["alice", "data1", "read"]]).1 =
        [["p", "alice", "data1", "read"]] ∧
      (UpdateFilteredPolicies (fun s => s) "p" [["alice", "data1", "write"]] 0
          ["alice", "data1", "read"]
          [savePolicyLine (fun s => s) "p" ["alice", "data1", "read"]]).1 ≠
        [["alice", "data1", "read"]] := by
  decide

/-- Claim C4 as amended: in the scenario above the returned old-tuple
list is `[[p, alice, data1, read]]` — the decoded old tuple with the
rule type prepended — the matched document is deleted and the new policy
put, all queued on the one submitted action list, leaving the new rule's
document as the entire stored state. -/
theorem updateFilteredPolicies_replaces (hash : String → String) :
    UpdateFilteredPolicies hash "p" [["alice", "data1", "write"]] 0
        ["alice", "data1", "read"]
        [savePolicyLine hash "p" ["alice", "data1", "read"]] =
      ([["p", "alice", "data1", "read"]],
        [DocAction.delete (savePolicyLine hash "p" ["alice", "data1", "read"]),
          DocAction.put (savePolicyLine hash "p" ["alice", "data1", "write"])],
        [savePolicyLine hash "p" ["alice", "data1", "write"]]) := by
  have e0 : "v" ++ toString (0 : Nat) = "v0" := rfl
  have e1 : "v" ++ toString (1 : Nat) = "v1" := rfl
  have e2 : "v" ++ toString (2 : Nat) = "v2" := rfl
  simp [UpdateFilteredPolicies, buildFilteredQuery_eq, addFiltersToQuery,
    matchesQuery, getField, savePolicyLine, toStringPolicy, applyActions,
    applyAction, deleteRule, putRule, generateID, List.filter_cons,
    e0, e1, e2]
